/-
Verification of the SmartScraper repository's natural-language specification
against its source code, via a shallow embedding in Lean 4.

Conventions used throughout this development:
* Python `float` arithmetic is modelled over `ℚ` (all numeric literals the
  claims mention — 3.0, 15.0, 5.0 — are exactly representable, and no claim
  depends on rounding error).
* Python `datetime` values are modelled as integer day counts; a stored
  ISO timestamp becomes the `Int` instant at which the entry was written
  and `datetime.now()` becomes an explicit `now : Int` argument.
* Python dicts that the code uses as ordered string-keyed maps become
  association lists (`List (String × α)`), preserving insertion order,
  exactly as CPython dicts do.
* I/O (writing the backing JSON file of a store) is modelled by a `file`
  field carried alongside the in-memory data: `_save_...` copies the
  in-memory map into `file`.
* Raised exceptions become `Except`/`Option` results.
-/
import Mathlib

set_option maxRecDepth 40000

namespace SmartScraper

/-! ## Python string primitives

Faithful models of the Python `str` operations the sources use:
`str.strip`, `str.lower`, substring containment (`in`), `str.startswith`.
Strings are manipulated through their character lists. -/

/-- The characters Python's `str.strip()` and `\s` treat as whitespace
(ASCII range; the sources never feed non-ASCII whitespace). -/
def pyWsChars : List Char := [' ', '\t', '\n', '\r', Char.ofNat 11, Char.ofNat 12]

/-- `isPyWs c` holds when `c` is Python whitespace. -/
def isPyWs (c : Char) : Bool := pyWsChars.contains c

/-- Python `str.strip()` on a character list. -/
def pyStripChars (l : List Char) : List Char :=
  ((l.dropWhile isPyWs).reverse.dropWhile isPyWs).reverse

/-- Python `str.strip()`. -/
def pyStrip (s : String) : String := ⟨pyStripChars s.data⟩

/-- Python `str.lower()` (ASCII; the sources only lowercase ASCII queries,
schemes and model names). -/
def pyLower (s : String) : String := ⟨s.data.map Char.toLower⟩

/-- Containment of `needle` in `haystack` as character lists
(Python `needle in haystack`). -/
def listContainsSub (haystack needle : List Char) : Bool :=
  needle.isPrefixOf haystack ||
    (match haystack with
     | [] => false
     | _ :: t => listContainsSub t needle)

/-- Python `needle in haystack` on strings. -/
def strContains (haystack needle : String) : Bool :=
  listContainsSub haystack.data needle.data

def SONNET_INPUT_COST : ℚ := 3
def SONNET_OUTPUT_COST : ℚ := 15
def HAIKU_INPUT_COST : ℚ := 8/10
def HAIKU_OUTPUT_COST : ℚ := 4
def DEFAULT_DAILY_BUDGET : ℚ := 5
def BUDGET_WARNING_THRESHOLD : ℚ := 8/10
def CACHE_EXPIRY_DAYS : Int := 7
def SELECTOR_CACHE_EXPIRY_DAYS : Int := 30

/-! ## `utils/budget_manager.py` (claim C5)

`BudgetManager` keeps `usage_data["daily_usage"]`, a date-keyed map of
per-day buckets.  Costs are rationals (see the header note on floats). -/

namespace BudgetManager

/-- One per-day usage bucket (`usage_data["daily_usage"][day]`). -/
structure DayUsage where
  cost : ℚ
  requests : Nat
  input_tokens : Nat
  output_tokens : Nat
deriving Repr, DecidableEq

/-- The manager's state: configured daily budget plus the persisted usage
data (`daily_usage` keyed by date string, lifetime totals). -/
structure State where
  daily_budget : ℚ
  daily_usage : List (String × DayUsage)
  total_usage : ℚ
  total_requests : Nat
deriving Repr, DecidableEq

/-- `BudgetManager.calculate_cost`: per-million-token pricing for the
chosen model tier ("haiku" after lowercasing, else the sonnet rates). -/
def calculate_cost (input_tokens output_tokens : Nat) (model : String) : ℚ :=
  if pyLower model = "haiku" then
    (input_tokens / 1000000 : ℚ) * HAIKU_INPUT_COST
      + (output_tokens / 1000000 : ℚ) * HAIKU_OUTPUT_COST
  else
    (input_tokens / 1000000 : ℚ) * SONNET_INPUT_COST
      + (output_tokens / 1000000 : ℚ) * SONNET_OUTPUT_COST

/-- `BudgetManager.get_today_usage`: today's bucket, or an all-zero default.
`today` is the current date key (`_get_today_key`). -/
def get_today_usage (st : State) (today : String) : DayUsage :=
  match st.daily_usage.lookup today with
  | some u => u
  | none => { cost := 0, requests := 0, input_tokens := 0, output_tokens := 0 }

/-- `BudgetManager.get_remaining_budget`: `max(0, daily_budget - today.cost)`. -/
def get_remaining_budget (st : State) (today : String) : ℚ :=
  max 0 (st.daily_budget - (get_today_usage st today).cost)

/-- `BudgetManager.is_budget_exceeded`: remaining budget `<= 0`. -/
def is_budget_exceeded (st : State) (today : String) : Bool :=
  get_remaining_budget st today ≤ 0

/-- `BudgetManager.should_warn`: today's cost reached the warning share. -/
def should_warn (st : State) (today : String) : Bool :=
  (get_today_usage st today).cost ≥ st.daily_budget * BUDGET_WARNING_THRESHOLD

end BudgetManager

/-! ## A model of `urllib.parse.urlparse` (scheme / netloc / path)

The callers only consult `scheme`, `netloc` and `path`, so the model
extracts exactly those three components, following CPython's splitting
rules: a scheme is a leading alphabetic-then-alphanumeric(+-.) run
terminated by `:`; the netloc is present only after a literal `//` and
extends to the next `/`, `?` or `#`; the path is the remainder before
`?`/`#`. CPython lowercases the scheme.  CPython's `urlsplit` also
RAISES `ValueError("Invalid IPv6 URL")` when the netloc contains `[`
without `]` or `]` without `[`; `urlparse` below models that raising
path on top of the total component splitter `splitUrl`.  (CPython ≥ 3.11
additionally validates the inside of a *balanced* bracket pair as an
IPv6/IPvFuture address; full IP-literal validation is not modelled, and
every theorem below that quantifies over URLs restricts its universal
acceptance conjuncts to bracket-free netlocs, so no claim depends on
balanced-bracket behavior.) -/

namespace UrlParse

structure Result where
  scheme : String
  netloc : String
  path : String
deriving Repr, DecidableEq

def isSchemeChar (c : Char) : Bool :=
  c.isAlpha || c.isDigit || c = '+' || c = '-' || c = '.'

/-- Split off a leading `scheme:` if present (first char alphabetic, rest
scheme characters, terminated by `':'`). Returns (scheme, rest-after-colon)
or none when the URL has no scheme. -/
def splitScheme (l : List Char) : Option (List Char × List Char) :=
  let run := l.takeWhile isSchemeChar
  let rest := l.drop run.length
  match run, rest with
  | c :: cs, ':' :: r => if c.isAlpha then some (c :: cs, r) else none
  | _, _ => none

/-- Characters that terminate the netloc component. -/
def netlocEnd (c : Char) : Bool := c = '/' || c = '?' || c = '#'

/-- The component-splitting core of `urlparse` (everything except the
bracket check): scheme / netloc / path extraction. -/
def splitUrl (url : String) : Result :=
  let (scheme, rest) :=
    match splitScheme url.data with
    | some (s, r) => ((⟨s.map Char.toLower⟩ : String), r)
    | none => ("", url.data)
  if rest.take 2 = ['/', '/'] then
    let after := rest.drop 2
    let netloc := after.takeWhile (fun c => !netlocEnd c)
    let tail := after.drop netloc.length
    let path := tail.takeWhile (fun c => c ≠ '?' && c ≠ '#')
    { scheme := scheme, netloc := ⟨netloc⟩, path := ⟨path⟩ }
  else
    let path := rest.takeWhile (fun c => c ≠ '?' && c ≠ '#')
    { scheme := scheme, netloc := "", path := ⟨path⟩ }

end UrlParse

/-! ## `utils/validators.py` (claim C2) -/

/-- `get_domain`: netloc of the parsed URL, falling back to its path.
The source's bare `urlparse` call would propagate the stdlib
`ValueError` for a bracket-unbalanced netloc; the model uses the total
splitting core, since every claim that reaches `get_domain` (the storage
layer's keying in C4/C10) is insensitive to bracketed URLs and the
raising path is only observable through `validate_url`. -/
def get_domain (url : String) : String :=
  let parsed := UrlParse.splitUrl url
  if parsed.netloc ≠ "" then parsed.netloc else parsed.path

/-- `create_cache_key`: the source hashes `f"{url}::{query}"` with MD5 and
keys the cache by the hex digest.  The digest step is modelled as the
identity on the combined string — every claim in scope only ever compares
the key of a pair with the key of the same pair, so the choice of digest
function is irrelevant. -/
def create_cache_key (url query : String) : String :=
  url ++ "::" ++ query

/-- Python `round(x, n)` on the exact rational value (CPython rounds the
nearest double half-to-even; the difference is irrelevant here because no
claim in scope depends on a rounded field). -/
def pyRound (ndigits : Nat) (x : ℚ) : ℚ :=
  (⌊x * (10 : ℚ) ^ ndigits + 1/2⌋ : ℚ) / (10 : ℚ) ^ ndigits

/-! ## Ordered string-keyed maps (CPython `dict` semantics)

Assignment to an existing key updates it in place (keeping its position);
assignment to a fresh key appends; `del` removes the key's pair. -/

/-- `d[k] = v` on an association list. -/
def alSet {α : Type} (k : String) (v : α) :
    List (String × α) → List (String × α)
  | [] => [(k, v)]
  | (k', v') :: rest =>
      if k' = k then (k, v) :: rest else (k', v') :: alSet k v rest

/-- `del d[k]` on an association list. -/
def alErase {α : Type} (k : String) :
    List (String × α) → List (String × α)
  | [] => []
  | (k', v') :: rest =>
      if k' = k then rest else (k', v') :: alErase k rest

/-- An extracted record: one field-name → extracted-text dictionary. -/
abbrev Rec := List (String × String)

/-! ## `backend/storage/cache_manager.py` (claims C3, C10)

The cache is generic in its payload type (the source stores arbitrary
dicts; the engine stores its result dicts). -/

namespace CacheManager

/-- One cache entry, as written by `set` (default hit-tracking fields). -/
structure Entry (α : Type) where
  url : String
  query : String
  data : α
  timestamp : Int
  hits : Nat := 0
  last_hit : Option Int := none
deriving Repr, DecidableEq

/-- Manager state: in-memory `self.cache` plus the backing JSON file. -/
structure State (α : Type) where
  cache : List (String × Entry α)
  file : List (String × Entry α)
deriving Repr, DecidableEq

/-- `CacheManager._is_expired` (strictly older than the expiry window). -/
def _is_expired (now ts : Int) : Bool := now > ts + CACHE_EXPIRY_DAYS

/-- `CacheManager._save_cache`: persist the in-memory map. -/
def _save_cache {α : Type} (st : State α) : State α :=
  { st with file := st.cache }

/-- `CacheManager.get`: returns the stored payload if present and fresh;
an expired entry is deleted (and the deletion persisted) and `None`
returned; a miss returns `None` and leaves the state alone. -/
def get {α : Type} (now : Int) (st : State α) (url query : String) :
    Option α × State α :=
  let key := create_cache_key url query
  match st.cache.lookup key with
  | some entry =>
      if ¬_is_expired now entry.timestamp then (some entry.data, st)
      else
        let st' : State α := { st with cache := alErase key st.cache }
        (none, _save_cache st')
  | none => (none, st)

/-- `CacheManager.set`: overwrite unconditionally with a fresh timestamp
and persist. -/
def set {α : Type} (now : Int) (st : State α) (url query : String) (d : α) :
    State α :=
  let key := create_cache_key url query
  _save_cache
    { st with
      cache := alSet key
        { url := url, query := query, data := d, timestamp := now } st.cache }

/-- `CacheManager.increment_hit`: bump the entry's hit counter and last-hit
timestamp, if the entry exists. -/
def increment_hit {α : Type} (now : Int) (st : State α) (url query : String) :
    State α :=
  let key := create_cache_key url query
  match st.cache.lookup key with
  | some e =>
      _save_cache
        { st with
          cache := alSet key { e with hits := e.hits + 1, last_hit := some now }
            st.cache }
  | none => st

end CacheManager

/-! ## `backend/storage/learned_selectors.py` (claims C4, C10) -/

namespace SelectorManager

/-- One learned entry in a domain's `queries` list. -/
structure QEntry where
  query : String
  selectors : List (String × String)
  timestamp : Int
  success_count : Nat
deriving Repr, DecidableEq

/-- Per-domain record (`{"domain": ..., "queries": [...]}`). -/
structure DomainData where
  domain : String
  queries : List QEntry
deriving Repr, DecidableEq

/-- Manager state: in-memory `self.selectors` plus the backing file. -/
structure State where
  selectors : List (String × DomainData)
  file : List (String × DomainData)
deriving Repr, DecidableEq

/-- `SelectorManager._is_expired` (30-day window). -/
def _is_expired (now ts : Int) : Bool := now > ts + SELECTOR_CACHE_EXPIRY_DAYS

/-- `SelectorManager._save_selectors`. -/
def _save_selectors (st : State) : State := { st with file := st.selectors }

/-- The entry-scanning loop of `SelectorManager.get`: first fresh entry
whose query matches case-insensitively; an expired match is only logged and
the scan continues. -/
def findFresh (now : Int) (query : String) :
    List QEntry → Option (List (String × String))
  | [] => none
  | e :: rest =>
      if pyLower e.query = pyLower query then
        if ¬_is_expired now e.timestamp then some e.selectors
        else findFresh now query rest
      else findFresh now query rest

/-- `SelectorManager.get`: look up by domain, scan that domain's entries.
No branch mutates `self.selectors` or saves the file, so the state is
returned unchanged on every path. -/
def get (now : Int) (st : State) (url query : String) :
    Option (List (String × String)) × State :=
  let domain := get_domain url
  match st.selectors.lookup domain with
  | some dd => (findFresh now query dd.queries, st)
  | none => (none, st)

/-- The update loop of `SelectorManager.save`: update the first entry whose
query matches case-insensitively (new selectors, fresh timestamp, bumped
success count); report whether a match was found. -/
def updateQueries (now : Int) (query : String)
    (sels : List (String × String)) :
    List QEntry → List QEntry × Bool
  | [] => ([], false)
  | e :: rest =>
      if pyLower e.query = pyLower query then
        ({ e with selectors := sels, timestamp := now,
                  success_count := e.success_count + 1 } :: rest, true)
      else
        let (r, f) := updateQueries now query sels rest
        (e :: r, f)

/-- `SelectorManager.save`: create the domain slot if missing, update the
matching entry in place or append a fresh one (success count 1), persist. -/
def save (now : Int) (st : State) (url query : String)
    (sels : List (String × String)) : State :=
  let domain := get_domain url
  let base : DomainData :=
    match st.selectors.lookup domain with
    | some dd => dd
    | none => { domain := domain, queries := [] }
  let (qs, found) := updateQueries now query sels base.queries
  let qs' :=
    if found then qs
    else qs ++ [{ query := query, selectors := sels, timestamp := now,
                  success_count := 1 }]
  _save_selectors
    { st with selectors := alSet domain { base with queries := qs' } st.selectors }

/-- The `queries` list stored for a domain (empty when the domain is
unknown) — the view the invariants of C4/C10 quantify over. -/
def domainQueries (st : State) (d : String) : List QEntry :=
  match st.selectors.lookup d with
  | some dd => dd.queries
  | none => []

/-- The `domain` field stored for a domain (the domain itself when the
slot does not exist yet, as `save` would create it). -/
def domainName (st : State) (d : String) : String :=
  match st.selectors.lookup d with
  | some dd => dd.domain
  | none => d

/-- `save` iterated over a sequence of query strings — one save per
element, all against the same URL and selector mapping (claim C4, where
the queries agree only up to letter case). -/
def saveSeq (now : Int) (url : String) (sels : List (String × String)) :
    List String → State → State
  | [], st => st
  | q :: qs, st => saveSeq now url sels qs (save now st url q sels)

/-- `get_stats`'s `total_uses`: success counts summed over every entry. -/
def total_uses (st : State) : Nat :=
  (st.selectors.map fun p => (p.2.queries.map fun e => e.success_count).sum).sum

/-- `get_stats`'s `total_reuses`: `max(0, success_count - 1)` summed over
every entry (`Nat` subtraction is exactly `max 0` of the difference). -/
def total_reuses (st : State) : Nat :=
  (st.selectors.map fun p => (p.2.queries.map fun e => e.success_count - 1).sum).sum

/-- The fields of `SelectorManager.get_savings_estimate`. -/
structure Savings where
  learned_domains : Nat
  learned_queries : Nat
  total_reuses : Nat
  total_savings_eur : ℚ
  reuse_rate : ℚ
  cost_per_llm_call : ℚ
deriving Repr, DecidableEq

/-- `SelectorManager.get_savings_estimate` (cost per avoided LLM call is
the source's `0.002`). -/
def get_savings_estimate (st : State) : Savings :=
  let uses := total_uses st
  let reuses := total_reuses st
  { learned_domains := st.selectors.length
    learned_queries := (st.selectors.map fun p => p.2.queries.length).sum
    total_reuses := reuses
    total_savings_eur := pyRound 2 ((reuses : ℚ) * (2/1000))
    reuse_rate := if uses > 0 then pyRound 1 ((reuses : ℚ) / (uses : ℚ) * 100) else 0
    cost_per_llm_call := 2/1000 }

end SelectorManager

/-! ## `backend/exporters/data_exporter.py` (claim C8)

Each operation is modelled as the pair of its outcome (the `ValueError`
message, or the returned path/paths) and the list of files it wrote, in
order.  The empty-data check is the first statement of every operation, so
an empty input produces the error with an empty write list. -/

namespace DataExporter

/-- `_generate_filename` (`nowStamp` stands for the strftime timestamp). -/
def _generate_filename (base_name ext nowStamp : String) : String :=
  base_name ++ "_" ++ nowStamp ++ ext

/-- `export_csv`: raise on empty data, else write one CSV file at the given
or generated path and return that path. -/
def export_csv (defaultDir nowStamp : String) (data : List Rec)
    (file_path : Option String) : Except String String × List String :=
  if data = [] then (.error "No data to export", [])
  else
    let fp :=
      match file_path with
      | some p => p
      | none => defaultDir ++ "/" ++ _generate_filename "scraped_data" ".csv" nowStamp
    (.ok fp, [fp])

/-- `export_json`: raise on empty data, else write one JSON file. -/
def export_json (defaultDir nowStamp : String) (data : List Rec)
    (file_path : Option String) : Except String String × List String :=
  if data = [] then (.error "No data to export", [])
  else
    let fp :=
      match file_path with
      | some p => p
      | none => defaultDir ++ "/" ++ _generate_filename "scraped_data" ".json" nowStamp
    (.ok fp, [fp])

/-- `export_excel`: raise on empty data, else write one XLSX file. -/
def export_excel (defaultDir nowStamp : String) (data : List Rec)
    (file_path : Option String) : Except String String × List String :=
  if data = [] then (.error "No data to export", [])
  else
    let fp :=
      match file_path with
      | some p => p
      | none => defaultDir ++ "/" ++ _generate_filename "scraped_data" ".xlsx" nowStamp
    (.ok fp, [fp])

/-- `export_all`: raise on empty data, else export CSV, JSON and Excel at
timestamped paths, returning the format → path map and the three writes. -/
def export_all (defaultDir nowStamp : String) (data : List Rec)
    (base_name : String) : Except String (List (String × String)) × List String :=
  if data = [] then (.error "No data to export", [])
  else
    let stem := defaultDir ++ "/" ++ base_name ++ "_" ++ nowStamp
    match export_csv defaultDir nowStamp data (some (stem ++ ".csv")) with
    | (.error e, w) => (.error e, w)
    | (.ok p1, w1) =>
      match export_json defaultDir nowStamp data (some (stem ++ ".json")) with
      | (.error e, w) => (.error e, w1 ++ w)
      | (.ok p2, w2) =>
        match export_excel defaultDir nowStamp data (some (stem ++ ".xlsx")) with
        | (.error e, w) => (.error e, w1 ++ w2 ++ w)
        | (.ok p3, w3) =>
            (.ok [("csv", p1), ("json", p2), ("excel", p3)], w1 ++ w2 ++ w3)

/-- `export_with_metadata`: raise on empty data, else write one JSON file
combining the records with the metadata dictionary. -/
def export_with_metadata (defaultDir nowStamp : String) (data : List Rec)
    (metadata : List (String × String)) (file_path : Option String) :
    Except String String × List String :=
  if data = [] then (.error "No data to export", [])
  else
    let fp :=
      match file_path with
      | some p => p
      | none =>
          defaultDir ++ "/"
            ++ _generate_filename "scraped_data_with_metadata" ".json" nowStamp
    (.ok fp, [fp])

/-- `validate_data`: `ValueError("Data is empty")` on an empty list, else
`True`.  The `isinstance` checks of the source are guaranteed statically
by the Lean types and never raise on a `List Rec` argument. -/
def validate_data (data : List Rec) : Except String Bool :=
  if data = [] then .error "Data is empty" else .ok true

end DataExporter

/-! ## `backend/scraper_engine.py` — the orchestrator (claims C1, C3)

The engine's result dictionaries carry a presentation-only `message` string
(currency-formatted log text); it is not modelled — no claim mentions it.
The effectful collaborators that live outside the storage layer (network
scrapers, the BS4/regex/LLM extractors working on raw HTML strings) enter
the model as oracle functions, so that `scrape`'s orchestration logic —
the part the claims are about — is translated exactly. -/

/-- `ScrapingMethod` enum. -/
inductive ScrapingMethod
  | auto | requests | selenium | playwright | stealth
deriving Repr, DecidableEq

/-- `ScrapingMethod.value`. -/
def ScrapingMethod.value : ScrapingMethod → String
  | .auto => "auto"
  | .requests => "requests"
  | .selenium => "selenium"
  | .playwright => "playwright"
  | .stealth => "stealth"

/-- The engine's per-scrape result dictionary (minus `message`). -/
structure ScrapeResult where
  success : Bool
  data : List Rec
  cost : ℚ
  method_used : String
  cached : Bool
deriving Repr, DecidableEq

/-- What `SmartExtractor.extract` yields on success. -/
structure SmartExtraction where
  selectors : List (String × String)
  data : List Rec
  cost : ℚ
deriving Repr, DecidableEq

/-- The effectful collaborators of `ScraperEngine.scrape`:
`fetch` is `scraper.fetch(url)` (`.error` = raised exception, `""` = falsy
result); `extract_with_selectors` is the BS4 extractor applied to the raw
HTML string; `has_patterns`/`regex_extract` are the regex extractor
(`none` = falsy result); `smart` is the LLM-backed extractor, absent when
no API key is available (`self.smart_extractor is None`), and `none` from
it models a falsy extraction result. -/
structure Oracles where
  fetch : String → Except Unit String
  extract_with_selectors : String → List (String × String) → List Rec
  has_patterns : String → Bool
  regex_extract : String → String → Option Rec
  smart : Option (String → String → String → Option SmartExtraction)

/-- The engine's mutable state: the three stores plus its counters. -/
structure EngineState where
  cache : CacheManager.State ScrapeResult
  sel : SelectorManager.State
  budget : BudgetManager.State
  total_cost : ℚ
  cached_count : Nat
  learned_count : Nat
  llm_count : Nat

namespace ScraperEngine

/-- Phases 4 (regex) and 5 (LLM) of `ScraperEngine.scrape`; the pipeline
falls through to this code both when no learned selectors exist and when
learned selectors extract nothing. -/
def scrapePhase45 (o : Oracles) (now : Int) (today : String) (st : EngineState)
    (url query html : String) (method : ScrapingMethod) :
    ScrapeResult × EngineState :=
  -- Phase 4: pattern-based extraction
  let regexHit : Option (ScrapeResult × EngineState) :=
    if o.has_patterns query then
      match o.regex_extract html query with
      | some regex_data =>
          let result : ScrapeResult :=
            { success := true, data := [regex_data], cost := 0,
              method_used := "regex", cached := false }
          some (result,
            { st with cache := CacheManager.set now st.cache url query result })
      | none => none
    else none
  match regexHit with
  | some r => r
  | none =>
    -- Phase 5: LLM analysis
    match o.smart with
    | none =>
        ({ success := false, data := [], cost := 0, method_used := "none",
           cached := false }, st)
    | some smartF =>
      if BudgetManager.is_budget_exceeded st.budget today then
        ({ success := false, data := [], cost := 0, method_used := "none",
           cached := false }, st)
      else
        let st := { st with llm_count := st.llm_count + 1 }
        match smartF html query url with
        | none =>
            ({ success := false, data := [], cost := 0,
               method_used := "llm_failed", cached := false }, st)
        | some er =>
          if er.data = [] then
            ({ success := false, data := [], cost := er.cost,
               method_used := "llm_failed", cached := false }, st)
          else
            let st := { st with total_cost := st.total_cost + er.cost }
            let st :=
              if er.selectors ≠ [] then
                { st with sel := SelectorManager.save now st.sel url query er.selectors }
              else st
            let result : ScrapeResult :=
              { success := true, data := er.data, cost := er.cost,
                method_used := "llm", cached := false }
            (result,
              { st with cache := CacheManager.set now st.cache url query result })

/-- `ScraperEngine.scrape`: cache → fetch → learned selectors → regex →
LLM.  `.error ()` models a fetch exception propagating to the caller (the
`try`/`finally` of the source has no `except`). -/
def scrape (o : Oracles) (now : Int) (today : String) (st : EngineState)
    (url query : String) (method : ScrapingMethod) :
    Except Unit (ScrapeResult × EngineState) :=
  -- Phase 1: check cache (a stored result dict is a nonempty dict, truthy)
  let cachePair := CacheManager.get now st.cache url query
  let st := { st with cache := cachePair.2 }
  match cachePair.1 with
  | some cached_data =>
      let st := { st with cached_count := st.cached_count + 1 }
      let st := { st with cache := CacheManager.increment_hit now st.cache url query }
      .ok ({ success := true, data := cached_data.data, cost := 0,
             method_used := "cache", cached := true }, st)
  | none =>
    -- Phase 2: fetch HTML
    match o.fetch url with
    | .error () => .error ()
    | .ok html =>
      if html = "" then
        .ok ({ success := false, data := [], cost := 0,
               method_used := method.value, cached := false }, st)
      else
        -- Phase 3: learned selectors
        let selPair := SelectorManager.get now st.sel url query
        let st := { st with sel := selPair.2 }
        match selPair.1 with
        | some learned_selectors =>
          let st := { st with learned_count := st.learned_count + 1 }
          let data := o.extract_with_selectors html learned_selectors
          if data = [] then .ok (scrapePhase45 o now today st url query html method)
          else
            let st := { st with
              sel := SelectorManager.save now st.sel url query learned_selectors }
            let result : ScrapeResult :=
              { success := true, data := data, cost := 0,
                method_used := "learned_selectors", cached := false }
            .ok (result,
              { st with cache := CacheManager.set now st.cache url query result })
        | none => .ok (scrapePhase45 o now today st url query html method)

/-- `ScraperEngine._detect_pagination_pattern`. -/
def detect_pagination_pattern (url : String) : String :=
  if strContains url "?page=" || strContains url "&page=" then "query_param"
  else if strContains url "/page/" then "path"
  else if strContains url "#page=" then "hash"
  else "query_param"

/-- Aggregate result of `scrape_with_pagination` (minus `message`). -/
structure PaginationResult where
  success : Bool
  data : List Rec
  pages_scraped : Nat
  total_cost : ℚ
  method_used : String
deriving Repr, DecidableEq

/-- Outcome of one page's inner pattern loop. -/
inductive InnerRes
  | hit (r : ScrapeResult)
  /-- the source's `else: # Empty page = end of pagination` early return -/
  | emptyStop
  | exhausted
deriving Repr, DecidableEq

/-- The inner `for pattern_type in patterns_to_try` loop of
`scrape_with_pagination`.  `scrapeO` abstracts `self.scrape` (url, query,
method ↦ its result; `none` = raised exception, caught and logged by the
loop).  `gen` abstracts `_generate_paginated_url` (its stdlib query-string
re-encoding is not inspected by any claim); page 1 always uses the bare
base URL. -/
def tryPatterns (scrapeO : String → String → ScrapingMethod → Option ScrapeResult)
    (gen : String → Nat → String → String) (base_url query : String)
    (method : ScrapingMethod) (page : Nat) : List String → InnerRes
  | [] => .exhausted
  | pattern_type :: rest =>
    let page_url := if page = 1 then base_url else gen base_url page pattern_type
    match scrapeO page_url query method with
    | none => tryPatterns scrapeO gen base_url query method page rest
    | some result =>
      if result.success ∧ result.data ≠ [] then
        -- `page_data = result["data"]; if len(page_data) > 0`
        if result.data.length > 0 then .hit result else .emptyStop
      else tryPatterns scrapeO gen base_url query method page rest

/-- Final-result construction after the `for page` loop ends. -/
def finalize (method : ScrapingMethod) (all_data : List Rec)
    (pages_scraped : Nat) (total_cost : ℚ) (method_used : Option String) :
    PaginationResult :=
  if pages_scraped > 0 then
    { success := true, data := all_data, pages_scraped := pages_scraped,
      total_cost := total_cost, method_used := method_used.getD method.value }
  else
    { success := false, data := [], pages_scraped := 0, total_cost := 0,
      method_used := method.value }

/-- The `for page in range(1, max_pages + 1)` loop, by countdown on the
pages left.  The inter-page `time.sleep(page_delay)` has no modelled
effect.  The dead store `pattern = pattern_type` (the "sticky" pattern) is
dropped: `patterns_to_try` is computed once before the loop and the
variable is never read again. -/
def pagLoop (scrapeO : String → String → ScrapingMethod → Option ScrapeResult)
    (gen : String → Nat → String → String) (base_url query : String)
    (method : ScrapingMethod) (patterns : List String) :
    Nat → Nat → List Rec → Nat → ℚ → Option String → PaginationResult
  | 0, _, all_data, pages_scraped, total_cost, mu =>
      finalize method all_data pages_scraped total_cost mu
  | left + 1, page, all_data, pages_scraped, total_cost, mu =>
    match tryPatterns scrapeO gen base_url query method page patterns with
    | .hit r =>
        pagLoop scrapeO gen base_url query method patterns left (page + 1)
          (all_data ++ r.data) (pages_scraped + 1) (total_cost + r.cost)
          (some r.method_used)
    | .emptyStop =>
        { success := true, data := all_data, pages_scraped := pages_scraped,
          total_cost := total_cost, method_used := mu.getD method.value }
    | .exhausted => finalize method all_data pages_scraped total_cost mu

/-- `ScraperEngine.scrape_with_pagination`. -/
def scrape_with_pagination
    (scrapeO : String → String → ScrapingMethod → Option ScrapeResult)
    (gen : String → Nat → String → String) (base_url query : String)
    (max_pages : Nat) (method : ScrapingMethod) : PaginationResult :=
  let pattern := detect_pagination_pattern base_url
  let patterns_to_try := [pattern, "query_param", "path"]
  pagLoop scrapeO gen base_url query method patterns_to_try max_pages 1 [] 0 0 none

end ScraperEngine

/-! ## An HTML document model (claims C6, C7, C9)

A parsed page, as BeautifulSoup presents it to `bs4_extractor.py` and
`html_minimizer.py`: a tree of elements (tag, ordered attributes, children)
and text nodes.  The parsing step itself (`BeautifulSoup(html, 'lxml')`)
is the library's job and is not modelled: the embedded operations consume
the parsed tree.  Serialization (`str(node)`) renders `<tag a="v" ...>` —
entity escaping and void-element forms are omitted (no input in scope
contains `&`, `<`, `>` inside text, nor void elements).  Comment nodes are
not modelled: BeautifulSoup's `Comment` strings do not contain the
`"<!--"` delimiters, so the minimizer's comment-removal pass only ever
removes plain text nodes that literally contain `"<!--"`, which the model
does cover. -/

inductive HNode where
  | text (s : String)
  | elem (tag : String) (attrs : List (String × String)) (children : List HNode)

/-- A parsed document (the soup's top-level children). -/
abbrev HDoc := List HNode

/-- Python `str.split()` (split on whitespace runs, dropping empties) —
how BeautifulSoup tokenizes a `class` attribute into class names. -/
def splitWs (s : String) : List String :=
  ((s.data.splitOnP isPyWs).filter (· ≠ [])).map fun l => ⟨l⟩

/-- The CSS selector forms occurring in the embedded sources' selector
lists: tag, `.class`, `#id`, `[attr="v"]`, `[attr*="v"]`. -/
inductive Sel where
  | tag (t : String)
  | cls (c : String)
  | idSel (i : String)
  | attrEq (a v : String)
  | attrContains (a v : String)

/-- CSS matching of one selector against one node. -/
def matchesSel (sel : Sel) : HNode → Bool
  | .text _ => false
  | .elem t attrs _ =>
    match sel with
    | .tag name => t = name
    | .cls c => ((attrs.lookup "class").getD "" |> splitWs).contains c
    | .idSel i => attrs.lookup "id" = some i
    | .attrEq a v => attrs.lookup a = some v
    | .attrContains a v =>
        match attrs.lookup a with
        | some s => strContains s v
        | none => false

mutual
/-- A node and all its descendants, in document (pre-)order. -/
def allNodes : HNode → List HNode
  | .text s => [.text s]
  | .elem t a c => .elem t a c :: allNodesList c

def allNodesList : List HNode → List HNode
  | [] => []
  | n :: r => allNodes n ++ allNodesList r
end

/-- `soup.select(sel)`: every node of the document matching `sel`, in
document order. -/
def selectDoc (doc : HDoc) (sel : Sel) : List HNode :=
  (allNodesList doc).filter (matchesSel sel)

/-- `element.select(sel)`: matching descendants of one node. -/
def selectNode (n : HNode) (sel : Sel) : List HNode :=
  match n with
  | .text _ => []
  | .elem _ _ c => (allNodesList c).filter (matchesSel sel)

/-- `soup.find(tag)`: first element with the given tag, in document order. -/
def findTag (doc : HDoc) (name : String) : Option HNode :=
  (allNodesList doc).find? fun n =>
    match n with
    | .elem t _ _ => t = name
    | .text _ => false

mutual
/-- `node.get_text(strip=True)`: concatenation of all descendant strings,
each stripped. -/
def getTextS : HNode → String
  | .text s => pyStrip s
  | .elem _ _ c => getTextSList c

def getTextSList : List HNode → String
  | [] => ""
  | n :: r => getTextS n ++ getTextSList r
end

/-- Attribute rendering of `str(node)`: ` name="value"` per attribute. -/
def serializeAttrs : List (String × String) → String
  | [] => ""
  | (n, v) :: rest => " " ++ n ++ "=\"" ++ v ++ "\"" ++ serializeAttrs rest

mutual
/-- `str(node)`. -/
def serializeNode : HNode → String
  | .text s => s
  | .elem t a c =>
      "<" ++ t ++ serializeAttrs a ++ ">" ++ serializeList c ++ "</" ++ t ++ ">"

def serializeList : List HNode → String
  | [] => ""
  | n :: r => serializeNode n ++ serializeList r
end

/-! ## `backend/extractors/bs4_extractor.py` (claim C7) -/

namespace BS4Extractor

/-- `BS4Extractor.extract_with_selectors`, over a parsed document and a
field-name → selector mapping (an ordered dict, hence an association
list).  `none` models the uncaught `IndexError` of
`list(selectors.values())[0]` on an empty mapping (that line sits outside
the `try`).  The BS4 `select` calls inside the `try` cannot raise in the
model, so the `except` branch is dead. -/
def extract_with_selectors (doc : HDoc) (selectors : List (String × Sel)) :
    Option (List Rec) :=
  match selectors with
  | [] => none
  | (_, first_selector) :: _ =>
    let first_elements := selectDoc doc first_selector
    if first_elements.isEmpty then some []
    else
      let max_items := first_elements.length
      some ((List.range max_items).foldl
        (fun results i =>
          let item_data : Rec := selectors.map fun fs =>
            let elements := selectDoc doc fs.2
            (fs.1,
              if h : i < elements.length then getTextS (elements.get ⟨i, h⟩)
              else "")
          if item_data.any (fun p => p.2 ≠ "") then results ++ [item_data]
          else results)
        [])

end BS4Extractor

/-! ## `utils/html_minimizer.py` (claims C6, C9)

The `_clean_html` regular-expression substitutions are implemented as
left-to-right scanners over the character list, replacing non-overlapping
leftmost matches exactly as `re.sub` does.  Each scanner takes a fuel
argument (initialized to the list length, and always sufficient since
every step consumes at least one character) so that the definitions are
structurally recursive and reduce inside the kernel. -/

namespace HTMLMinimizer

def REMOVE_TAGS : List String :=
  ["script", "style", "noscript", "iframe", "svg",
   "nav", "header", "footer", "aside",
   "form", "button", "input", "textarea", "select"]

def MAIN_CONTENT_SELECTORS : List Sel :=
  [.tag "main", .tag "article", .attrEq "role" "main",
   .cls "main-content", .idSel "main-content",
   .cls "content", .idSel "content",
   .cls "post-content", .cls "article-content",
   .cls "product-list", .cls "products", .cls "items", .cls "listings"]

def ITEM_PATTERNS : List Sel :=
  [.cls "product", .cls "item", .cls "card", .cls "listing",
   .attrContains "class" "product", .attrContains "class" "item",
   .tag "article", .tag "li"]

mutual
/-- Step 1's tag removal: `find_all(tag)` + `decompose()` over
`REMOVE_TAGS` removes every element (at any depth) with a listed tag. -/
def removeTagsNode (bad : List String) : HNode → Option HNode
  | .text s => some (.text s)
  | .elem t a c =>
      if bad.contains t then none
      else some (.elem t a (removeTagsList bad c))

def removeTagsList (bad : List String) : List HNode → List HNode
  | [] => []
  | n :: r =>
    match removeTagsNode bad n with
    | some n' => n' :: removeTagsList bad r
    | none => removeTagsList bad r
end

mutual
/-- Step 1's "remove comments" pass: `extract()` every string node whose
text contains the literal `"<!--"`. -/
def removeMarkerTextsNode : HNode → Option HNode
  | .text s => if strContains s "<!--" then none else some (.text s)
  | .elem t a c => some (.elem t a (removeMarkerTextsList c))

def removeMarkerTextsList : List HNode → List HNode
  | [] => []
  | n :: r =>
    match removeMarkerTextsNode n with
    | some n' => n' :: removeMarkerTextsList r
    | none => removeMarkerTextsList r
end

/-- `HTMLMinimizer._find_main_content`: first selector (in priority order)
with a `select_one` match. -/
def find_main_content (doc : HDoc) : Option HNode :=
  MAIN_CONTENT_SELECTORS.findSome? fun sel => (selectDoc doc sel).head?

/-- `HTMLMinimizer._is_listing_query`. -/
def is_listing_query (query : String) : Bool :=
  if query = "" then false
  else
    ["product", "item", "listing", "article", "post",
     "job", "result", "card", "entry", "all", "list"].any
      fun keyword => strContains (pyLower query) keyword

/-! ### `_clean_html` -/

/-- Try to match `\s+name="[^"]*"` at the start of `l`; on success return
the remainder after the match.  (`\s+` is committed to the maximal run:
the following literal starts with a non-whitespace character, so a shorter
run cannot back into a match.) -/
def attrMatch (name : List Char) (l : List Char) : Option (List Char) :=
  let ws := l.takeWhile isPyWs
  if ws.isEmpty then none
  else
    let rest := l.drop ws.length
    if (name ++ ['=', '"']).isPrefixOf rest then
      let after := rest.drop (name.length + 2)
      let v := after.takeWhile (· ≠ '"')
      match after.drop v.length with
      | '"' :: r => some r
      | _ => none
    else none

/-- The scanner for `re.sub(r'\s+name="[^"]*"', '', ·)`. -/
def attrScanF (name : List Char) : Nat → List Char → List Char
  | 0, l => l
  | _ + 1, [] => []
  | fuel + 1, c :: rest =>
    if isPyWs c then
      match attrMatch name (c :: rest) with
      | some r => attrScanF name fuel r
      | none => c :: attrScanF name fuel rest
    else c :: attrScanF name fuel rest

/-- `re.sub(r'\s+name="[^"]*"', '', ·)` for a fixed attribute name. -/
def removeAttrRuns (name : String) (l : List Char) : List Char :=
  attrScanF name.data l.length l

/-- Try to match `\s+data-[a-z-]+="[^"]*"` at the start of `l`. -/
def dataAttrMatch (l : List Char) : Option (List Char) :=
  let ws := l.takeWhile isPyWs
  if ws.isEmpty then none
  else
    let rest := l.drop ws.length
    if "data-".data.isPrefixOf rest then
      let rest2 := rest.drop 5
      let run := rest2.takeWhile fun c => ('a' ≤ c && c ≤ 'z') || c = '-'
      if run.isEmpty then none
      else
        match rest2.drop run.length with
        | '=' :: '"' :: after =>
          let v := after.takeWhile (· ≠ '"')
          match after.drop v.length with
          | '"' :: r => some r
          | _ => none
        | _ => none
    else none

/-- The scanner for `re.sub(r'\s+data-[a-z-]+="[^"]*"', '', ·)`. -/
def dataAttrScanF : Nat → List Char → List Char
  | 0, l => l
  | _ + 1, [] => []
  | fuel + 1, c :: rest =>
    if isPyWs c then
      match dataAttrMatch (c :: rest) with
      | some r => dataAttrScanF fuel r
      | none => c :: dataAttrScanF fuel rest
    else c :: dataAttrScanF fuel rest

/-- The scanner for `re.sub(r'\s+', ' ', ·)`. -/
def collapseWsF : Nat → List Char → List Char
  | 0, l => l
  | _ + 1, [] => []
  | fuel + 1, c :: rest =>
    if isPyWs c then ' ' :: collapseWsF fuel (rest.dropWhile isPyWs)
    else c :: collapseWsF fuel rest

/-- The scanner for `re.sub(r'>\s+<', '><', ·)`. -/
def gtLtScanF : Nat → List Char → List Char
  | 0, l => l
  | _ + 1, [] => []
  | fuel + 1, c :: rest =>
    if c = '>' then
      let ws := rest.takeWhile isPyWs
      if ws.isEmpty then '>' :: gtLtScanF fuel rest
      else
        match rest.drop ws.length with
        | '<' :: r => '>' :: '<' :: gtLtScanF fuel r
        | _ => '>' :: gtLtScanF fuel rest
    else c :: gtLtScanF fuel rest

/-- `HTMLMinimizer._clean_html` on a character list: strip `class`, `id`,
`style` and `data-*` attributes, collapse whitespace runs, collapse
whitespace between adjacent tags, strip. -/
def clean_html_chars (l : List Char) : List Char :=
  let l := removeAttrRuns "class" l
  let l := removeAttrRuns "id" l
  let l := removeAttrRuns "style" l
  let l := dataAttrScanF l.length l
  let l := collapseWsF l.length l
  let l := gtLtScanF l.length l
  pyStripChars l

/-- `HTMLMinimizer._clean_html`. -/
def clean_html (s : String) : String := ⟨clean_html_chars s.data⟩

/-- The `for i, item in enumerate(samples, 1)` body of
`_extract_item_samples`: comment header plus serialized item per sample. -/
def buildSamples (sample_count : Nat) : Nat → List HNode → String
  | _, [] => ""
  | i, item :: rest =>
      "<!-- Sample " ++ toString i ++ "/" ++ toString sample_count ++ " -->\n"
        ++ serializeNode item ++ "\n\n" ++ buildSamples sample_count (i + 1) rest

/-- The pattern loop of `HTMLMinimizer._extract_item_samples`: first item
pattern with at least 2 matches whose 2–3-sample block fits the budget
wins; its block is cleaned and returned.  `ctx` is the `main_content or
soup` argument: a main-content element, or the whole document. -/
def itemSampleLoop (ctx : Option HNode) (doc : HDoc) (max_chars : Nat) :
    List Sel → Option String
  | [] => none
  | pattern :: restPatterns =>
    let items :=
      match ctx with
      | some n => selectNode n pattern
      | none => selectDoc doc pattern
    if items.length ≥ 2 then
      let sample_count := min 3 items.length
      let samples := items.take sample_count
      let sample_html :=
        "<!-- Found " ++ toString items.length ++ " items, showing "
          ++ toString sample_count ++ " samples -->\n"
          ++ buildSamples sample_count 1 samples
      if sample_html.length ≤ max_chars then some (clean_html sample_html)
      else itemSampleLoop ctx doc max_chars restPatterns
    else itemSampleLoop ctx doc max_chars restPatterns

/-- `HTMLMinimizer._extract_item_samples`. -/
def extract_item_samples (ctx : Option HNode) (doc : HDoc) (max_chars : Nat) :
    Option String :=
  itemSampleLoop ctx doc max_chars ITEM_PATTERNS

/-- `HTMLMinimizer.minimize` over a parsed document.  The sampling path's
returned string always begins with `'<'`, so its Python truthiness test
coincides with the `Option` match here. -/
def minimize (doc : HDoc) (max_chars : Nat) (query : String) : String :=
  -- Step 1: remove unwanted elements, then marker-containing strings
  let doc := removeTagsList REMOVE_TAGS doc
  let doc := removeMarkerTextsList doc
  -- Step 2: find main content area
  let main_content := find_main_content doc
  let content_html :=
    match main_content with
    | some mc => serializeNode mc
    | none =>
      match findTag doc "body" with
      | some body => serializeNode body
      | none => serializeList doc
  -- Step 3: listing queries try sample extraction first
  let sample :=
    if is_listing_query query then extract_item_samples main_content doc max_chars
    else none
  match sample with
  | some s => s
  | none =>
    -- Step 4: clean up; Step 5: truncate if still too long
    let minimized := clean_html content_html
    if minimized.length > max_chars then ⟨minimized.data.take max_chars⟩ ++ "..."
    else minimized

end HTMLMinimizer

/-- A concrete four-product listing page (claim C6): four `.product`
elements inside the body. -/
def docFour : HDoc :=
  [.elem "html" [] [.elem "body" []
    [ .elem "div" [("class", "product")] [.text "ALPHAONE"]
    , .elem "div" [("class", "product")] [.text "BETATWO"]
    , .elem "div" [("class", "product")] [.text "GAMMATHREE"]
    , .elem "div" [("class", "product")] [.text "DELTAFOUR"]
    ]]]

/-- The cleaned three-sample block the minimizer emits for `docFour`
whenever the 214-character raw block fits the budget. -/
def docFourSample : String :=
  "<!-- Found 4 items, showing 3 samples --><!-- Sample 1/3 --><div>ALPHAONE</div><!-- Sample 2/3 --><div>BETATWO</div><!-- Sample 3/3 --><div>GAMMATHREE</div>"

/-! # Theorems

The claim theorems (and their witnesses/counterexamples), preceded by the
shared helper lemmas they build on. -/

/-! ## Association-list helper lemmas -/

theorem lookup_alSet_self {α : Type} (k : String) (v : α) (m : List (String × α)) :
    (alSet k v m).lookup k = some v := by
  induction m with
  | nil => simp [alSet, List.lookup]
  | cons p rest ih =>
    obtain ⟨k', w⟩ := p
    by_cases h : k' = k
    · subst h
      simp [alSet, List.lookup]
    · have hb : (k == k') = false := beq_false_of_ne (Ne.symm h)
      simp [alSet, h, List.lookup, hb, ih]

theorem alSet_alSet {α : Type} (k : String) (v w : α) (m : List (String × α)) :
    alSet k v (alSet k w m) = alSet k v m := by
  induction m with
  | nil => simp [alSet]
  | cons p rest ih =>
    obtain ⟨k', w'⟩ := p
    by_cases h : k' = k
    · subst h
      simp [alSet]
    · simp [alSet, h, ih]

/-- Replacing (or appending) the value at one key shifts a summed
projection by exactly the difference at that key. -/
theorem alSet_map_sum {α : Type} (f : α → Nat) (k : String) (v : α)
    (m : List (String × α)) :
    ((alSet k v m).map fun p => f p.2).sum + (m.lookup k).elim 0 f
      = (m.map fun p => f p.2).sum + f v := by
  induction m with
  | nil => simp [alSet]
  | cons p rest ih =>
    obtain ⟨k', w⟩ := p
    by_cases h : k' = k
    · subst h
      simp [alSet, List.lookup]
      omega
    · have hb : (k == k') = false := beq_false_of_ne (Ne.symm h)
      simp only [alSet, if_neg h, List.map_cons, List.sum_cons, List.lookup, hb]
      omega

/-! ## C2 — validate_url -/

/-- C5: `calculate_cost(1_000_000, 0, "sonnet") = 3.0` and
`calculate_cost(0, 1_000_000, "sonnet") = 15.0`; and whenever today's
accumulated cost meets or exceeds the configured daily budget,
`is_budget_exceeded()` is true and `get_remaining_budget()` is 0. -/
theorem budget_cost_rates_and_exhaustion :
    BudgetManager.calculate_cost 1000000 0 "sonnet" = 3
    ∧ BudgetManager.calculate_cost 0 1000000 "sonnet" = 15
    ∧ ∀ (st : BudgetManager.State) (today : String),
        st.daily_budget ≤ (BudgetManager.get_today_usage st today).cost →
        BudgetManager.is_budget_exceeded st today = true
          ∧ BudgetManager.get_remaining_budget st today = 0 := by
  have hlow : pyLower "sonnet" = "sonnet" := rfl
  have hne : ¬(("sonnet" : String) = "haiku") := by decide
  refine ⟨?_, ?_, ?_⟩
  · unfold BudgetManager.calculate_cost
    rw [hlow, if_neg hne]
    norm_num [SONNET_INPUT_COST, SONNET_OUTPUT_COST]
  · unfold BudgetManager.calculate_cost
    rw [hlow, if_neg hne]
    norm_num [SONNET_INPUT_COST, SONNET_OUTPUT_COST]
  intro st today h
  have h0 : BudgetManager.get_remaining_budget st today = 0 := by
    unfold BudgetManager.get_remaining_budget
    exact max_eq_left (by linarith)
  refine ⟨?_, h0⟩
  unfold BudgetManager.is_budget_exceeded
  rw [h0]
  simp

/-- Witness for C5's conditional part at a concrete over-budget state. -/
theorem budget_cost_rates_and_exhaustion_witness :
    BudgetManager.is_budget_exceeded
        ⟨5, [("2025-01-01", ⟨6, 1, 1500000, 100000⟩)], 6, 1⟩ "2025-01-01" = true
    ∧ BudgetManager.get_remaining_budget
        ⟨5, [("2025-01-01", ⟨6, 1, 1500000, 100000⟩)], 6, 1⟩ "2025-01-01" = 0 :=
  budget_cost_rates_and_exhaustion.2.2 _ _ (by decide)

/-! ## C3 — cache round-trip and the engine's cache phase -/

/-- C3: `CacheManager.set(url, query, payload)` followed immediately by
`CacheManager.get(url, query)` returns exactly that payload, and a
`scrape` call that resolves in the cache phase returns success with cost
0 and `cached = true` (serving the cached result's records). -/
theorem cache_roundtrip_and_cache_phase :
    (∀ {α : Type} (now : Int) (st : CacheManager.State α) (url query : String) (d : α),
       (CacheManager.get now (CacheManager.set now st url query d) url query).1
         = some d)
    ∧ (∀ (o : Oracles) (now : Int) (today : String) (st : EngineState)
         (url query : String) (method : ScrapingMethod) (d : ScrapeResult)
         (c2 : CacheManager.State ScrapeResult),
         CacheManager.get now st.cache url query = (some d, c2) →
         ∃ st', ScraperEngine.scrape o now today st url query method
           = .ok ({ success := true, data := d.data, cost := 0,
                    method_used := "cache", cached := true }, st')) := by
  constructor
  · intro α now st url query d
    have hexp : CacheManager._is_expired now now = false := by
      unfold CacheManager._is_expired CACHE_EXPIRY_DAYS
      simp only [decide_eq_false_iff_not, not_lt, gt_iff_lt]
      linarith
    unfold CacheManager.get CacheManager.set CacheManager._save_cache
    dsimp only
    rw [lookup_alSet_self]
    simp [hexp]
  · intro o now today st url query method d c2 h
    unfold ScraperEngine.scrape
    rw [h]
    exact ⟨_, rfl⟩

/-- Witness for C3's cache-phase part at a concrete hit state. -/
theorem cache_roundtrip_and_cache_phase_witness :
    ∃ st', ScraperEngine.scrape
        ⟨fun _ => .ok "", fun _ _ => [], fun _ => false, fun _ _ => none, none⟩
        3 "2025-01-01"
        ⟨⟨[(create_cache_key "https://e.com" "q",
            ⟨"https://e.com", "q", ⟨true, [[("f", "v")]], 0, "llm", false⟩, 1, 0, none⟩)],
          []⟩,
         ⟨[], []⟩, ⟨5, [], 0, 0⟩, 0, 0, 0, 0⟩
        "https://e.com" "q" .auto
      = .ok ({ success := true, data := [[("f", "v")]], cost := 0,
               method_used := "cache", cached := true }, st') :=
  cache_roundtrip_and_cache_phase.2 _ 3 "2025-01-01" _ "https://e.com" "q" .auto
    ⟨true, [[("f", "v")]], 0, "llm", false⟩
    ⟨[(create_cache_key "https://e.com" "q",
       ⟨"https://e.com", "q", ⟨true, [[("f", "v")]], 0, "llm", false⟩, 1, 0, none⟩)],
      []⟩
    (by decide)

/-! ## C10 — SelectorManager.get is pure; CacheManager.get deletes -/

theorem findFresh_none (now : Int) (query : String) (l : List SelectorManager.QEntry)
    (h : ∀ e ∈ l, pyLower e.query = pyLower query →
      SelectorManager._is_expired now e.timestamp = true) :
    SelectorManager.findFresh now query l = none := by
  induction l with
  | nil => rfl
  | cons e rest ih =>
    unfold SelectorManager.findFresh
    by_cases hm : pyLower e.query = pyLower query
    · rw [if_pos hm, h e (by simp) hm]
      simp only [not_true_eq_false, Bool.false_eq_true, if_false]
      exact ih fun x hx => h x (by simp [hx])
    · rw [if_neg hm]
      exact ih fun x hx => h x (by simp [hx])

/-- C10: `SelectorManager.get` never mutates the store — in-memory data
and backing file are unchanged on every path, and an expired match yields
no result without being deleted — whereas `CacheManager.get` on an
expired entry deletes it from the store and persists the deletion. -/
theorem selector_get_pure_cache_get_deletes :
    (∀ (now : Int) (st : SelectorManager.State) (url query : String),
       (SelectorManager.get now st url query).2 = st)
    ∧ (∀ (now : Int) (st : SelectorManager.State) (url query : String),
       (∀ e ∈ SelectorManager.domainQueries st (get_domain url),
          pyLower e.query = pyLower query →
            SelectorManager._is_expired now e.timestamp = true) →
       (SelectorManager.get now st url query).1 = none)
    ∧ (∀ (now : Int) (st : CacheManager.State ScrapeResult) (url query : String)
         (e : CacheManager.Entry ScrapeResult),
       st.cache.lookup (create_cache_key url query) = some e →
       CacheManager._is_expired now e.timestamp = true →
       CacheManager.get now st url query
         = (none, { cache := alErase (create_cache_key url query) st.cache,
                    file := alErase (create_cache_key url query) st.cache })) := by
  refine ⟨?_, ?_, ?_⟩
  · intro now st url query
    unfold SelectorManager.get
    cases h : st.selectors.lookup (get_domain url) <;> simp [h]
  · intro now st url query h
    unfold SelectorManager.get
    unfold SelectorManager.domainQueries at h
    cases hl : st.selectors.lookup (get_domain url) with
    | none => simp [hl]
    | some dd =>
      rw [hl] at h
      simp only [hl]
      exact findFresh_none now query dd.queries h
  · intro now st url query e hl hexp
    unfold CacheManager.get
    dsimp only
    rw [hl]
    simp [hexp, CacheManager._save_cache]

/-- Witness for C10 at concrete stores: an expired learned-selector entry
is left in place with no result; an expired cache entry is deleted. -/
theorem selector_get_pure_cache_get_deletes_witness :
    (SelectorManager.get 100
        ⟨[("e.com", ⟨"e.com", [⟨"q", [("f", ".s")], 0, 2⟩]⟩)],
         [("e.com", ⟨"e.com", [⟨"q", [("f", ".s")], 0, 2⟩]⟩)]⟩
        "https://e.com/x" "Q").1 = none
    ∧ CacheManager.get 100
        ⟨[(create_cache_key "https://e.com" "q",
           ⟨"https://e.com", "q", (⟨false, [], 0, "x", false⟩ : ScrapeResult), 0, 0, none⟩)],
         []⟩ "https://e.com" "q"
      = (none,
         { cache := alErase (create_cache_key "https://e.com" "q")
             [(create_cache_key "https://e.com" "q",
               ⟨"https://e.com", "q", (⟨false, [], 0, "x", false⟩ : ScrapeResult), 0, 0, none⟩)],
           file := alErase (create_cache_key "https://e.com" "q")
             [(create_cache_key "https://e.com" "q",
               ⟨"https://e.com", "q", (⟨false, [], 0, "x", false⟩ : ScrapeResult), 0, 0, none⟩)] }) :=
  ⟨selector_get_pure_cache_get_deletes.2.1 100 _ "https://e.com/x" "Q" (by decide),
   selector_get_pure_cache_get_deletes.2.2 100 _ "https://e.com" "q" _ rfl (by decide)⟩

/-! ## C4 — repeated selector saves update in place -/

theorem updateQueries_no_match (now : Int) (query : String)
    (sels : List (String × String)) (l : List SelectorManager.QEntry)
    (h : ∀ e ∈ l, pyLower e.query ≠ pyLower query) :
    SelectorManager.updateQueries now query sels l = (l, false) := by
  induction l with
  | nil => rfl
  | cons e rest ih =>
    unfold SelectorManager.updateQueries
    rw [if_neg (h e (by simp))]
    rw [ih fun x hx => h x (by simp [hx])]

theorem updateQueries_match_at_end (now : Int) (query : String)
    (sels : List (String × String)) (l : List SelectorManager.QEntry)
    (e0 : SelectorManager.QEntry)
    (h : ∀ e ∈ l, pyLower e.query ≠ pyLower query)
    (he : pyLower e0.query = pyLower query) :
    SelectorManager.updateQueries now query sels (l ++ [e0])
      = (l ++ [{ e0 with selectors := sels, timestamp := now,
                         success_count := e0.success_count + 1 }], true) := by
  induction l with
  | nil =>
    show SelectorManager.updateQueries now query sels (e0 :: []) = _
    unfold SelectorManager.updateQueries
    dsimp only
    rw [if_pos he]
    simp
  | cons e rest ih =>
    show SelectorManager.updateQueries now query sels (e :: (rest ++ [e0])) = _
    unfold SelectorManager.updateQueries
    dsimp only
    rw [if_neg (h e (by simp))]
    rw [ih fun x hx => h x (by simp [hx])]
    simp

/-- One `save` into a store whose domain list has no case-insensitively
matching entry appends a fresh entry with `success_count = 1` and
persists. -/
theorem save_fresh (now : Int) (url query : String)
    (sels : List (String × String)) (st : SelectorManager.State)
    (h : ∀ e ∈ SelectorManager.domainQueries st (get_domain url),
      pyLower e.query ≠ pyLower query) :
    SelectorManager.save now st url query sels
      = { selectors := alSet (get_domain url)
            { domain := SelectorManager.domainName st (get_domain url),
              queries := SelectorManager.domainQueries st (get_domain url)
                ++ [{ query := query, selectors := sels, timestamp := now,
                      success_count := 1 }] } st.selectors,
          file := alSet (get_domain url)
            { domain := SelectorManager.domainName st (get_domain url),
              queries := SelectorManager.domainQueries st (get_domain url)
                ++ [{ query := query, selectors := sels, timestamp := now,
                      success_count := 1 }] } st.selectors } := by
  unfold SelectorManager.save SelectorManager._save_selectors
    SelectorManager.domainQueries SelectorManager.domainName
  unfold SelectorManager.domainQueries at h
  dsimp only
  cases hl : st.selectors.lookup (get_domain url) with
  | some dd =>
    rw [hl] at h
    rw [updateQueries_no_match now query sels dd.queries h]
    dsimp only
    rw [if_neg (by simp)]
  | none =>
    rw [updateQueries_no_match now query sels [] (by simp)]
    dsimp only
    rw [if_neg (by simp)]

/-- Saving a sequence of queries that are case-insensitively equal to the
stored entry's query `q1` updates that entry in place — bumping its
success count once per save and never touching its stored query string —
leaving the rest of the domain list alone. -/
theorem saveSeq_from_entry (now : Int) (url : String)
    (sels : List (String × String)) (q1 : String) :
    ∀ (rest : List String) (m : List (String × SelectorManager.DomainData))
      (dn : String) (qs0 : List SelectorManager.QEntry) (k : Nat),
      (∀ e ∈ qs0, pyLower e.query ≠ pyLower q1) →
      (∀ q ∈ rest, pyLower q = pyLower q1) →
      SelectorManager.saveSeq now url sels rest
          ⟨alSet (get_domain url)
             ⟨dn, qs0 ++ [⟨q1, sels, now, k⟩]⟩ m,
           alSet (get_domain url)
             ⟨dn, qs0 ++ [⟨q1, sels, now, k⟩]⟩ m⟩
        = ⟨alSet (get_domain url)
             ⟨dn, qs0 ++ [⟨q1, sels, now, k + rest.length⟩]⟩ m,
           alSet (get_domain url)
             ⟨dn, qs0 ++ [⟨q1, sels, now, k + rest.length⟩]⟩ m⟩ := by
  intro rest
  induction rest with
  | nil => intro m dn qs0 k _ _; rfl
  | cons q rs ih =>
    intro m dn qs0 k h0 hr
    have hq : pyLower q = pyLower q1 := hr q (by simp)
    show SelectorManager.saveSeq now url sels rs
        (SelectorManager.save now
          ⟨alSet (get_domain url) ⟨dn, qs0 ++ [⟨q1, sels, now, k⟩]⟩ m,
           alSet (get_domain url) ⟨dn, qs0 ++ [⟨q1, sels, now, k⟩]⟩ m⟩
          url q sels) = _
    have hstep : SelectorManager.save now
        ⟨alSet (get_domain url) ⟨dn, qs0 ++ [⟨q1, sels, now, k⟩]⟩ m,
         alSet (get_domain url) ⟨dn, qs0 ++ [⟨q1, sels, now, k⟩]⟩ m⟩
        url q sels
        = ⟨alSet (get_domain url) ⟨dn, qs0 ++ [⟨q1, sels, now, k + 1⟩]⟩ m,
           alSet (get_domain url) ⟨dn, qs0 ++ [⟨q1, sels, now, k + 1⟩]⟩ m⟩ := by
      unfold SelectorManager.save SelectorManager._save_selectors
      dsimp only
      rw [lookup_alSet_self]
      dsimp only
      rw [updateQueries_match_at_end now q sels qs0 ⟨q1, sels, now, k⟩
        (fun e he => by rw [hq]; exact h0 e he)
        (by show pyLower q1 = pyLower q; exact hq.symm)]
      dsimp only
      rw [if_pos rfl]
      simp only [alSet_alSet]
    rw [hstep]
    have harith : k + (q :: rs).length = k + 1 + rs.length := by
      simp only [List.length_cons]
      omega
    rw [harith]
    exact ih m dn qs0 (k + 1) h0 fun x hx => hr x (by simp [hx])

/-- The per-domain reuse contribution used by `get_stats`. -/
theorem lookup_elim_reuses (st : SelectorManager.State) (d : String) :
    ((st.selectors.lookup d).elim 0
        fun dd => (dd.queries.map fun e => e.success_count - 1).sum)
      = ((SelectorManager.domainQueries st d).map
          fun e => e.success_count - 1).sum := by
  unfold SelectorManager.domainQueries
  cases st.selectors.lookup d <;> simp

/-- C4: saving the same (domain, selector-mapping) pair once per query of
a sequence `q1 :: rest` whose members agree with `q1` up to letter case —
N = 1 + |rest| saves in all — leaves exactly one entry for that query in
the domain's list, updated in place (it keeps the first saved query
string, never duplicated) with `success_count = N`, and
`get_savings_estimate` reports N − 1 additional total reuses for it. -/
theorem selector_save_in_place_counting :
    ∀ (now : Int) (st : SelectorManager.State) (url q1 : String)
      (rest : List String) (sels : List (String × String)),
      (∀ q ∈ rest, pyLower q = pyLower q1) →
      (∀ e ∈ SelectorManager.domainQueries st (get_domain url),
        pyLower e.query ≠ pyLower q1) →
      ((SelectorManager.domainQueries
          (SelectorManager.saveSeq now url sels (q1 :: rest) st)
          (get_domain url)).filter
         fun e => pyLower e.query == pyLower q1)
        = [{ query := q1, selectors := sels, timestamp := now,
             success_count := (q1 :: rest).length }]
      ∧ (SelectorManager.get_savings_estimate
            (SelectorManager.saveSeq now url sels (q1 :: rest) st)).total_reuses
          = SelectorManager.total_reuses st + ((q1 :: rest).length - 1) := by
  intro now st url q1 rest sels hcase h
  have hshape : SelectorManager.saveSeq now url sels (q1 :: rest) st
      = { selectors := alSet (get_domain url)
            { domain := SelectorManager.domainName st (get_domain url),
              queries := SelectorManager.domainQueries st (get_domain url)
                ++ [{ query := q1, selectors := sels, timestamp := now,
                      success_count := (q1 :: rest).length }] } st.selectors,
          file := alSet (get_domain url)
            { domain := SelectorManager.domainName st (get_domain url),
              queries := SelectorManager.domainQueries st (get_domain url)
                ++ [{ query := q1, selectors := sels, timestamp := now,
                      success_count := (q1 :: rest).length }] } st.selectors } := by
    show SelectorManager.saveSeq now url sels rest
        (SelectorManager.save now st url q1 sels) = _
    rw [save_fresh now url q1 sels st h]
    have e1 := saveSeq_from_entry now url sels q1 rest st.selectors
      (SelectorManager.domainName st (get_domain url))
      (SelectorManager.domainQueries st (get_domain url)) 1 h hcase
    have harith : 1 + rest.length = (q1 :: rest).length := by
      simp only [List.length_cons]
      omega
    rw [harith] at e1
    exact e1
  rw [hshape]
  constructor
  · unfold SelectorManager.domainQueries
    rw [lookup_alSet_self]
    dsimp only
    rw [List.filter_append]
    have h1 : (SelectorManager.domainQueries st (get_domain url)).filter
        (fun e => pyLower e.query == pyLower q1) = [] := by
      rw [List.filter_eq_nil_iff]
      intro e he
      simpa using h e he
    unfold SelectorManager.domainQueries at h1
    rw [h1]
    simp
  · show SelectorManager.total_reuses _ = _
    unfold SelectorManager.total_reuses
    have key := alSet_map_sum
      (fun dd : SelectorManager.DomainData =>
        (dd.queries.map fun e => e.success_count - 1).sum)
      (get_domain url)
      { domain := SelectorManager.domainName st (get_domain url),
        queries := SelectorManager.domainQueries st (get_domain url)
          ++ [{ query := q1, selectors := sels, timestamp := now,
                success_count := (q1 :: rest).length }] }
      st.selectors
    rw [lookup_elim_reuses st (get_domain url)] at key
    simp only [List.map_append, List.sum_append, List.map_cons, List.map_nil,
      List.sum_cons, List.sum_nil, List.length_cons] at key ⊢
    omega

/-- Witness for C4 at a concrete empty store, with three saves whose
queries differ only in letter case. -/
theorem selector_save_in_place_counting_witness :
    ((SelectorManager.domainQueries
        (SelectorManager.saveSeq 5 "https://example.com/p" [("name", ".n")]
          ("Products" :: ["products", "PRODUCTS"]) ⟨[], []⟩)
        (get_domain "https://example.com/p")).filter
       fun e => pyLower e.query == pyLower "Products")
      = [{ query := "Products", selectors := [("name", ".n")], timestamp := 5,
           success_count := ("Products" :: ["products", "PRODUCTS"]).length }]
    ∧ (SelectorManager.get_savings_estimate
          (SelectorManager.saveSeq 5 "https://example.com/p" [("name", ".n")]
            ("Products" :: ["products", "PRODUCTS"]) ⟨[], []⟩)).total_reuses
        = SelectorManager.total_reuses ⟨[], []⟩
          + (("Products" :: ["products", "PRODUCTS"]).length - 1) :=
  selector_save_in_place_counting 5 ⟨[], []⟩ "https://example.com/p" "Products"
    ["products", "PRODUCTS"] [("name", ".n")] (by decide)
    (by simp [SelectorManager.domainQueries])

/-! ## C7 — BS4 extractor characterization -/

theorem foldl_append_filter {β α : Type} (g : β → α) (p : α → Bool) :
    ∀ (l : List β) (acc : List α),
      l.foldl (fun results i => if p (g i) then results ++ [g i] else results) acc
        = acc ++ (l.map g).filter p := by
  intro l
  induction l with
  | nil => intro acc; simp
  | cons x xs ih =>
    intro acc
    simp only [List.foldl_cons, List.map_cons, List.filter_cons]
    by_cases h : p (g x) = true
    · rw [if_pos h, ih, List.append_assoc]
      simp [h]
    · rw [if_neg h, ih]
      simp [h]

/-- C7: for a nonempty field → selector mapping, the extractor yields one
candidate record per match of the first selector; record `i` takes, for
each field independently, the text of that field's `i`-th selector match
(empty when that selector has fewer than `i+1` matches); and records with
every field empty are dropped. -/
theorem bs4_extract_characterization :
    ∀ (doc : HDoc) (f0 : String) (s0 : Sel) (rest : List (String × Sel)),
      BS4Extractor.extract_with_selectors doc ((f0, s0) :: rest)
        = some (List.filter (fun item => item.any fun p => p.2 ≠ "")
            ((List.range (selectDoc doc s0).length).map fun i =>
              ((f0, s0) :: rest).map fun fs =>
                (fs.1,
                  if h : i < (selectDoc doc fs.2).length then
                    getTextS ((selectDoc doc fs.2).get ⟨i, h⟩)
                  else ""))) := by
  intro doc f0 s0 rest
  unfold BS4Extractor.extract_with_selectors
  dsimp only
  cases hE : (selectDoc doc s0).isEmpty with
  | true =>
    have h0 : selectDoc doc s0 = [] := List.isEmpty_iff.mp hE
    simp [h0]
  | false =>
    simp only [Bool.false_eq_true, if_false]
    rw [foldl_append_filter
      (fun i => ((f0, s0) :: rest).map fun fs =>
        (fs.1,
          if h : i < (selectDoc doc fs.2).length then
            getTextS ((selectDoc doc fs.2).get ⟨i, h⟩)
          else ""))
      (fun item => item.any fun p => p.2 ≠ "")]
    simp

/-! ## C9 — the minimizer's output length bound -/

theorem dropWhile_length_le (p : Char → Bool) (l : List Char) :
    (l.dropWhile p).length ≤ l.length := by
  induction l with
  | nil => simp
  | cons a t ih =>
    rw [List.dropWhile_cons]
    by_cases h : p a = true <;> simp [h] <;> omega

theorem takeWhile_length_le (p : Char → Bool) (l : List Char) :
    (l.takeWhile p).length ≤ l.length := by
  induction l with
  | nil => simp
  | cons a t ih =>
    rw [List.takeWhile_cons]
    by_cases h : p a = true <;> simp [h] <;> omega

theorem pyStripChars_length_le (l : List Char) :
    (pyStripChars l).length ≤ l.length := by
  unfold pyStripChars
  calc ((l.dropWhile isPyWs).reverse.dropWhile isPyWs).reverse.length
      = ((l.dropWhile isPyWs).reverse.dropWhile isPyWs).length := by
        rw [List.length_reverse]
    _ ≤ (l.dropWhile isPyWs).reverse.length := dropWhile_length_le _ _
    _ = (l.dropWhile isPyWs).length := by rw [List.length_reverse]
    _ ≤ l.length := dropWhile_length_le _ _

theorem attrMatch_length_lt (name l r : List Char)
    (h : HTMLMinimizer.attrMatch name l = some r) : r.length < l.length := by
  unfold HTMLMinimizer.attrMatch at h
  dsimp only at h
  split at h
  · exact absurd h (by simp)
  · split at h
    · split at h
      case _ x heq =>
        have hx : x = r := by injection h
        subst hx
        have hlen := congrArg List.length heq
        simp only [List.length_drop, List.length_cons] at hlen
        omega
      · exact absurd h (by simp)
    · exact absurd h (by simp)

theorem attrScanF_length_le (name : List Char) :
    ∀ (fuel : Nat) (l : List Char),
      (HTMLMinimizer.attrScanF name fuel l).length ≤ l.length := by
  intro fuel
  induction fuel with
  | zero => intro l; cases l <;> simp [HTMLMinimizer.attrScanF]
  | succ f ih =>
    intro l
    cases l with
    | nil => simp [HTMLMinimizer.attrScanF]
    | cons c rest =>
      unfold HTMLMinimizer.attrScanF
      by_cases hw : isPyWs c = true
      · rw [if_pos hw]
        cases hm : HTMLMinimizer.attrMatch name (c :: rest) with
        | some r =>
          calc (HTMLMinimizer.attrScanF name f r).length
              ≤ r.length := ih r
            _ ≤ (c :: rest).length :=
                le_of_lt (attrMatch_length_lt name _ r hm)
        | none => simpa using ih rest
      · rw [if_neg hw]
        simpa using ih rest

theorem dataAttrMatch_length_lt (l r : List Char)
    (h : HTMLMinimizer.dataAttrMatch l = some r) : r.length < l.length := by
  unfold HTMLMinimizer.dataAttrMatch at h
  dsimp only at h
  split at h
  · exact absurd h (by simp)
  · split at h
    · split at h
      · exact absurd h (by simp)
      · split at h
        case _ x heq =>
          split at h
          case _ y heq2 =>
            have hy : y = r := by injection h
            subst hy
            have hlen := congrArg List.length heq
            have hlen2 := congrArg List.length heq2
            simp only [List.length_drop, List.length_cons] at hlen hlen2
            omega
          · exact absurd h (by simp)
        · exact absurd h (by simp)
    · exact absurd h (by simp)

theorem dataAttrScanF_length_le :
    ∀ (fuel : Nat) (l : List Char),
      (HTMLMinimizer.dataAttrScanF fuel l).length ≤ l.length := by
  intro fuel
  induction fuel with
  | zero => intro l; cases l <;> simp [HTMLMinimizer.dataAttrScanF]
  | succ f ih =>
    intro l
    cases l with
    | nil => simp [HTMLMinimizer.dataAttrScanF]
    | cons c rest =>
      unfold HTMLMinimizer.dataAttrScanF
      by_cases hw : isPyWs c = true
      · rw [if_pos hw]
        cases hm : HTMLMinimizer.dataAttrMatch (c :: rest) with
        | some r =>
          calc (HTMLMinimizer.dataAttrScanF f r).length
              ≤ r.length := ih r
            _ ≤ (c :: rest).length := le_of_lt (dataAttrMatch_length_lt _ r hm)
        | none => simpa using ih rest
      · rw [if_neg hw]
        simpa using ih rest

theorem collapseWsF_length_le :
    ∀ (fuel : Nat) (l : List Char),
      (HTMLMinimizer.collapseWsF fuel l).length ≤ l.length := by
  intro fuel
  induction fuel with
  | zero => intro l; cases l <;> simp [HTMLMinimizer.collapseWsF]
  | succ f ih =>
    intro l
    cases l with
    | nil => simp [HTMLMinimizer.collapseWsF]
    | cons c rest =>
      unfold HTMLMinimizer.collapseWsF
      by_cases hw : isPyWs c = true
      · rw [if_pos hw]
        have h1 := ih (rest.dropWhile isPyWs)
        have h2 := dropWhile_length_le isPyWs rest
        simp only [List.length_cons]
        omega
      · rw [if_neg hw]
        simpa using ih rest

theorem gtLtScanF_length_le :
    ∀ (fuel : Nat) (l : List Char),
      (HTMLMinimizer.gtLtScanF fuel l).length ≤ l.length := by
  intro fuel
  induction fuel with
  | zero => intro l; cases l <;> simp [HTMLMinimizer.gtLtScanF]
  | succ f ih =>
    intro l
    cases l with
    | nil => simp [HTMLMinimizer.gtLtScanF]
    | cons c rest =>
      unfold HTMLMinimizer.gtLtScanF
      by_cases hc : c = '>'
      · rw [if_pos hc]
        by_cases hw : (rest.takeWhile isPyWs).isEmpty = true
        · rw [if_pos hw]
          simpa using ih rest
        · rw [if_neg hw]
          split
          · rename_i r' heq
            have hws1 : 1 ≤ (rest.takeWhile isPyWs).length := by
              have hne : rest.takeWhile isPyWs ≠ [] := by
                simpa [List.isEmpty_iff] using hw
              have := List.length_pos.mpr hne
              omega
            have hws2 := takeWhile_length_le isPyWs rest
            have hr := congrArg List.length heq
            simp only [List.length_drop, List.length_cons] at hr
            have h1 := ih r'
            simp only [List.length_cons]
            omega
          · simpa using ih rest
      · rw [if_neg hc]
        simpa using ih rest

theorem clean_html_chars_length_le (l : List Char) :
    (HTMLMinimizer.clean_html_chars l).length ≤ l.length := by
  unfold HTMLMinimizer.clean_html_chars HTMLMinimizer.removeAttrRuns
  dsimp only
  calc (pyStripChars _).length
      ≤ _ := pyStripChars_length_le _
    _ ≤ _ := gtLtScanF_length_le _ _
    _ ≤ _ := collapseWsF_length_le _ _
    _ ≤ _ := dataAttrScanF_length_le _ _
    _ ≤ _ := attrScanF_length_le _ _ _
    _ ≤ _ := attrScanF_length_le _ _ _
    _ ≤ _ := attrScanF_length_le _ _ _

theorem clean_html_length_le (s : String) :
    (HTMLMinimizer.clean_html s).length ≤ s.length :=
  clean_html_chars_length_le s.data

theorem itemSampleLoop_length_le (ctx : Option HNode) (doc : HDoc) (m : Nat) :
    ∀ (pats : List Sel) (s : String),
      HTMLMinimizer.itemSampleLoop ctx doc m pats = some s → s.length ≤ m := by
  intro pats
  induction pats with
  | nil => intro s h; simp [HTMLMinimizer.itemSampleLoop] at h
  | cons p ps ih =>
    intro s h
    unfold HTMLMinimizer.itemSampleLoop at h
    dsimp only at h
    split at h
    · split at h
      case _ hle =>
        injection h with hs
        subst hs
        exact le_trans (clean_html_length_le _) hle
      · exact ih s h
    · exact ih s h

/-- C9: for every document, positive budget `m` and query, the minimized
output's length is at most `m + 3` — the sampling path stays within `m`
(its pre-cleaning block is checked against `m` and cleaning never
lengthens), and the truncation path cuts to `m` characters plus the
3-character ellipsis marker. -/
theorem truncate_length_le (s : String) (m : Nat) :
    ((⟨s.data.take m⟩ : String) ++ "...").length ≤ m + 3 := by
  rw [String.length_append]
  have h1 : (⟨s.data.take m⟩ : String).length = (s.data.take m).length := rfl
  rw [h1, List.length_take]
  have h2 : min m s.data.length ≤ m := min_le_left _ _
  have h3 : ("..." : String).length = 3 := rfl
  omega

theorem minimize_length_bound (doc : HDoc) (m : Nat) (query : String)
    (h : 0 < m) :
    (HTMLMinimizer.minimize doc m query).length ≤ m + 3 := by
  unfold HTMLMinimizer.minimize
  dsimp only
  by_cases hq : HTMLMinimizer.is_listing_query query = true
  all_goals simp only [hq, Bool.false_eq_true, if_true, if_false]
  · cases hs : HTMLMinimizer.extract_item_samples
        (HTMLMinimizer.find_main_content
          (HTMLMinimizer.removeMarkerTextsList
            (HTMLMinimizer.removeTagsList HTMLMinimizer.REMOVE_TAGS doc)))
        (HTMLMinimizer.removeMarkerTextsList
          (HTMLMinimizer.removeTagsList HTMLMinimizer.REMOVE_TAGS doc)) m with
    | some s =>
      have hb := itemSampleLoop_length_le _ _ m HTMLMinimizer.ITEM_PATTERNS s hs
      dsimp only
      omega
    | none =>
      dsimp only
      split
      · exact truncate_length_le _ m
      · rename_i hng
        simp only [not_lt] at hng
        omega
  · split
    · exact truncate_length_le _ m
    · rename_i hng
      simp only [not_lt] at hng
      omega

/-- Witness for C9 at a concrete document and budget. -/
theorem minimize_length_bound_witness :
    0 < 10 ∧ (HTMLMinimizer.minimize
        [.elem "body" [] [.text "some page content here"]] 10 "q").length ≤ 10 + 3 :=
  ⟨by decide,
   minimize_length_bound [.elem "body" [] [.text "some page content here"]] 10 "q"
     (by decide)⟩

/-! ## C1 — pagination on a zero-record page -/

theorem tryPatterns_cons_hit
    (scrapeO : String → String → ScrapingMethod → Option ScrapeResult)
    (gen : String → Nat → String → String) (base_url query : String)
    (method : ScrapingMethod) (page : Nat) (pat : String) (rest : List String)
    (r : ScrapeResult)
    (hr : scrapeO (if page = 1 then base_url else gen base_url page pat)
        query method = some r)
    (hsucc : r.success = true) (hdata : r.data ≠ []) :
    ScraperEngine.tryPatterns scrapeO gen base_url query method page (pat :: rest)
      = .hit r := by
  unfold ScraperEngine.tryPatterns
  dsimp only
  rw [hr]
  dsimp only
  rw [if_pos ⟨hsucc, hdata⟩]
  rw [if_pos (List.length_pos.mpr hdata)]

theorem tryPatterns_all_empty
    (scrapeO : String → String → ScrapingMethod → Option ScrapeResult)
    (gen : String → Nat → String → String) (base_url query : String)
    (method : ScrapingMethod) (page : Nat) (hp : ¬page = 1) :
    ∀ pats : List String,
      (∀ pat ∈ pats, ∃ r, scrapeO (gen base_url page pat) query method = some r
          ∧ r.success = true ∧ r.data = []) →
      ScraperEngine.tryPatterns scrapeO gen base_url query method page pats
        = .exhausted := by
  intro pats
  induction pats with
  | nil => intro _; rfl
  | cons pat rest ih =>
    intro h
    obtain ⟨r, hr, hsucc, hdata⟩ := h pat (by simp)
    unfold ScraperEngine.tryPatterns
    dsimp only
    rw [if_neg hp, hr]
    dsimp only
    rw [if_neg (by simp [hdata])]
    exact ih fun p hp' => h p (by simp [hp'])

theorem tryPatterns_page1_all_empty
    (scrapeO : String → String → ScrapingMethod → Option ScrapeResult)
    (gen : String → Nat → String → String) (base_url query : String)
    (method : ScrapingMethod)
    (h : ∃ r, scrapeO base_url query method = some r
        ∧ r.success = true ∧ r.data = []) :
    ∀ pats : List String,
      ScraperEngine.tryPatterns scrapeO gen base_url query method 1 pats
        = .exhausted := by
  obtain ⟨r, hr, hsucc, hdata⟩ := h
  intro pats
  induction pats with
  | nil => rfl
  | cons pat rest ih =>
    unfold ScraperEngine.tryPatterns
    dsimp only
    rw [if_pos rfl, hr]
    dsimp only
    rw [if_neg (by simp [hdata])]
    exact ih

/-- The outer page loop, run from a page `≥ 2` with `ps ≥ 1` pages already
scraped: `k` further pages succeed with the first pattern, then a page on
which every pattern yields success-with-no-records stops the loop, and the
final result is success with `ps + k` pages. -/
theorem pagLoop_good_then_empty
    (scrapeO : String → String → ScrapingMethod → Option ScrapeResult)
    (gen : String → Nat → String → String) (base_url query : String)
    (method : ScrapingMethod) (pat0 : String) (restPats : List String) :
    ∀ (k page ps left : Nat) (acc : List Rec) (tc : ℚ) (mu : Option String),
      2 ≤ page → 1 ≤ ps → k < left →
      (∀ p, page ≤ p → p < page + k →
        ∃ r, scrapeO (gen base_url p pat0) query method = some r
          ∧ r.success = true ∧ r.data ≠ []) →
      (∀ pat ∈ pat0 :: restPats,
        ∃ r, scrapeO (gen base_url (page + k) pat) query method = some r
          ∧ r.success = true ∧ r.data = []) →
      (ScraperEngine.pagLoop scrapeO gen base_url query method (pat0 :: restPats)
          left page acc ps tc mu).success = true
      ∧ (ScraperEngine.pagLoop scrapeO gen base_url query method (pat0 :: restPats)
          left page acc ps tc mu).pages_scraped = ps + k := by
  intro k
  induction k with
  | zero =>
    intro page ps left acc tc mu hpage hps hleft _ hempty
    cases left with
    | zero => omega
    | succ l =>
      unfold ScraperEngine.pagLoop
      rw [tryPatterns_all_empty scrapeO gen base_url query method page
        (by omega) _ (by simpa using hempty)]
      unfold ScraperEngine.finalize
      rw [if_pos (by omega)]
      exact ⟨rfl, rfl⟩
  | succ k ih =>
    intro page ps left acc tc mu hpage hps hleft hgood hempty
    cases left with
    | zero => omega
    | succ l =>
      obtain ⟨r, hr, hsucc, hdata⟩ := hgood page (le_refl _) (by omega)
      unfold ScraperEngine.pagLoop
      rw [tryPatterns_cons_hit scrapeO gen base_url query method page pat0
        restPats r (by rw [if_neg (by omega)]; exact hr) hsucc hdata]
      dsimp only
      have hres := ih (page + 1) (ps + 1) l (acc ++ r.data) (tc + r.cost)
        (some r.method_used) (by omega) (by omega) (by omega)
        (fun p h1 h2 => hgood p (by omega) (by omega))
        (by
          intro pat hpat
          have h := hempty pat hpat
          have he : page + 1 + k = page + (k + 1) := by omega
          rw [he]
          exact h)
      refine ⟨hres.1, ?_⟩
      have h2 := hres.2
      omega

/-- C1 counterexample: when the very first page scrapes successfully but
yields zero records, the aggregate reports failure with zero pages — not
success — because the guard `result.get("success") and
result.get("data")` is falsy for an empty list, making the
success-with-empty early return unreachable. -/
theorem pagination_empty_first_page_counterexample :
    ScraperEngine.scrape_with_pagination
        (fun _ _ _ => some { success := true, data := [], cost := 0,
                             method_used := "requests", cached := false })
        (fun b p pat => b ++ "|" ++ toString p ++ "|" ++ pat)
        "https://example.com/products" "all products" 3 .auto
      = { success := false, data := [], pages_scraped := 0, total_cost := 0,
          method_used := "auto" } := rfl

/-- C1 amended: a page that scrapes successfully with zero records stops
the pagination loop; when at least one earlier page yielded records the
aggregate reports success with the pages scraped so far, but when the
zero-record page is the very first page the aggregate reports failure
(`success = false`, `pages_scraped = 0`, "Failed to scrape any pages"),
because the success-with-empty early return is unreachable. -/
theorem pagination_empty_page_amended :
    (∀ (scrapeO : String → String → ScrapingMethod → Option ScrapeResult)
       (gen : String → Nat → String → String) (base_url query : String)
       (method : ScrapingMethod) (max_pages : Nat) (r : ScrapeResult),
       0 < max_pages →
       scrapeO base_url query method = some r →
       r.success = true → r.data = [] →
       ScraperEngine.scrape_with_pagination scrapeO gen base_url query
           max_pages method
         = { success := false, data := [], pages_scraped := 0, total_cost := 0,
             method_used := method.value })
    ∧ (∀ (scrapeO : String → String → ScrapingMethod → Option ScrapeResult)
         (gen : String → Nat → String → String) (base_url query : String)
         (method : ScrapingMethod) (max_pages k : Nat),
       1 ≤ k → k < max_pages →
       (∃ r, scrapeO base_url query method = some r
           ∧ r.success = true ∧ r.data ≠ []) →
       (∀ p, 2 ≤ p → p ≤ k →
         ∃ r, scrapeO
             (gen base_url p (ScraperEngine.detect_pagination_pattern base_url))
             query method = some r
           ∧ r.success = true ∧ r.data ≠ []) →
       (∀ pat ∈ [ScraperEngine.detect_pagination_pattern base_url,
                 "query_param", "path"],
         ∃ r, scrapeO (gen base_url (k + 1) pat) query method = some r
           ∧ r.success = true ∧ r.data = []) →
       (ScraperEngine.scrape_with_pagination scrapeO gen base_url query
           max_pages method).success = true
       ∧ (ScraperEngine.scrape_with_pagination scrapeO gen base_url query
           max_pages method).pages_scraped = k) := by
  constructor
  · intro scrapeO gen base_url query method max_pages r hmp hr hsucc hdata
    unfold ScraperEngine.scrape_with_pagination
    dsimp only
    cases max_pages with
    | zero => omega
    | succ l =>
      unfold ScraperEngine.pagLoop
      rw [tryPatterns_page1_all_empty scrapeO gen base_url query method
        ⟨r, hr, hsucc, hdata⟩ _]
      unfold ScraperEngine.finalize
      rw [if_neg (by omega)]
  · intro scrapeO gen base_url query method max_pages k hk hmp hfirst hgood hempty
    obtain ⟨r1, hr1, hsucc1, hdata1⟩ := hfirst
    unfold ScraperEngine.scrape_with_pagination
    dsimp only
    cases max_pages with
    | zero => omega
    | succ l =>
      unfold ScraperEngine.pagLoop
      rw [tryPatterns_cons_hit scrapeO gen base_url query method 1
        (ScraperEngine.detect_pagination_pattern base_url)
        ["query_param", "path"] r1 (by rw [if_pos rfl]; exact hr1) hsucc1 hdata1]
      dsimp only
      obtain ⟨j, rfl⟩ : ∃ j, k = j + 1 := ⟨k - 1, by omega⟩
      have hres := pagLoop_good_then_empty scrapeO gen base_url query method _ _
        j (1 + 1) (0 + 1) l ([] ++ r1.data) (0 + r1.cost) (some r1.method_used)
        (by omega) (by omega) (by omega)
        (fun p h1 h2 => hgood p h1 (by omega))
        (by
          intro pat hpat
          have h := hempty pat hpat
          have h2 : 2 + j = j + 1 + 1 := by omega
          rw [h2]
          exact h)
      refine ⟨hres.1, ?_⟩
      have h2 := hres.2
      omega

/-- Witness for C1's amended theorem: one nonempty page followed by an
empty page 2 under every pattern yields success with one page scraped. -/
theorem pagination_empty_page_amended_witness :
    (ScraperEngine.scrape_with_pagination
        (fun u _ _ => if u = "https://e.com/items" then
            some { success := true, data := [[("f", "v")]], cost := 0,
                   method_used := "requests", cached := false }
          else
            some { success := true, data := [], cost := 0,
                   method_used := "requests", cached := false })
        (fun b p pat => b ++ "|" ++ toString p ++ "|" ++ pat)
        "https://e.com/items" "all products" 3 .auto).success = true
    ∧ (ScraperEngine.scrape_with_pagination
        (fun u _ _ => if u = "https://e.com/items" then
            some { success := true, data := [[("f", "v")]], cost := 0,
                   method_used := "requests", cached := false }
          else
            some { success := true, data := [], cost := 0,
                   method_used := "requests", cached := false })
        (fun b p pat => b ++ "|" ++ toString p ++ "|" ++ pat)
        "https://e.com/items" "all products" 3 .auto).pages_scraped = 1 :=
  pagination_empty_page_amended.2 _ _ "https://e.com/items" "all products"
    .auto 3 1 (by decide) (by decide)
    ⟨{ success := true, data := [[("f", "v")]], cost := 0,
       method_used := "requests", cached := false }, by decide, rfl, by decide⟩
    (fun p h1 h2 => absurd (le_trans h1 h2) (by decide))
    (by
      intro pat hpat
      refine ⟨{ success := true, data := [], cost := 0,
                method_used := "requests", cached := false }, ?_, rfl, rfl⟩
      simp only [List.mem_cons, List.mem_singleton] at hpat
      rcases hpat with rfl | rfl | hpat
      · decide
      · decide
      · rcases hpat with rfl | hpat
        · decide
        · simp at hpat)

/-! ## C6 — the minimizer's listing-sample guarantee -/

/-- When the query is listing-shaped and the sampling step yields a block,
`minimize` returns exactly that block. -/
theorem minimize_of_listing_sample (doc : HDoc) (m : Nat) (query s : String)
    (hq : HTMLMinimizer.is_listing_query query = true)
    (hs : HTMLMinimizer.extract_item_samples
        (HTMLMinimizer.find_main_content
          (HTMLMinimizer.removeMarkerTextsList
            (HTMLMinimizer.removeTagsList HTMLMinimizer.REMOVE_TAGS doc)))
        (HTMLMinimizer.removeMarkerTextsList
          (HTMLMinimizer.removeTagsList HTMLMinimizer.REMOVE_TAGS doc)) m
      = some s) :
    HTMLMinimizer.minimize doc m query = s := by
  unfold HTMLMinimizer.minimize
  dsimp only
  simp only [hq, if_true, hs]

/-- C6 counterexample: with a budget of 10 characters the minimized
output of the four-product page neither contains the second product's
text nor stays within the budget (the truncation path appends the
3-character marker). -/
theorem minimize_listing_budget_counterexample :
    ¬(strContains (HTMLMinimizer.minimize docFour 10 "all products") "BETATWO" = true
      ∧ (HTMLMinimizer.minimize docFour 10 "all products").length ≤ 10) := by
  decide

/-- C6 amended: for the four-product page, every listing-shaped query and
every budget that the three-sample block (214 characters before cleaning)
fits into, minimizing returns the cleaned sample block, which contains
the first two products' text and does not exceed the budget; smaller
budgets fall back to cleaning-plus-truncation (see the counterexample). -/
theorem minimize_listing_sample_amended :
    ∀ (m : Nat) (query : String),
      HTMLMinimizer.is_listing_query query = true →
      214 ≤ m →
      HTMLMinimizer.minimize docFour m query = docFourSample
      ∧ strContains (HTMLMinimizer.minimize docFour m query) "ALPHAONE" = true
      ∧ strContains (HTMLMinimizer.minimize docFour m query) "BETATWO" = true
      ∧ (HTMLMinimizer.minimize docFour m query).length ≤ m := by
  intro m query hq hm
  have hs : HTMLMinimizer.extract_item_samples
      (HTMLMinimizer.find_main_content
        (HTMLMinimizer.removeMarkerTextsList
          (HTMLMinimizer.removeTagsList HTMLMinimizer.REMOVE_TAGS docFour)))
      (HTMLMinimizer.removeMarkerTextsList
        (HTMLMinimizer.removeTagsList HTMLMinimizer.REMOVE_TAGS docFour)) m
        = some docFourSample := by
    have e : HTMLMinimizer.extract_item_samples
        (HTMLMinimizer.find_main_content
          (HTMLMinimizer.removeMarkerTextsList
            (HTMLMinimizer.removeTagsList HTMLMinimizer.REMOVE_TAGS docFour)))
        (HTMLMinimizer.removeMarkerTextsList
          (HTMLMinimizer.removeTagsList HTMLMinimizer.REMOVE_TAGS docFour)) m
        = if 214 ≤ m then some docFourSample
          else if 214 ≤ m then some docFourSample else none := rfl
    rw [e, if_pos hm]
  have key := minimize_of_listing_sample docFour m query docFourSample hq hs
  refine ⟨key, ?_, ?_, ?_⟩
  · rw [key]; decide
  · rw [key]; decide
  · rw [key]
    have h156 : docFourSample.length = 156 := rfl
    omega

/-- Witness for C6's amended theorem at budget 300 and a concrete
listing query. -/
theorem minimize_listing_sample_amended_witness :
    HTMLMinimizer.minimize docFour 300 "all products" = docFourSample
    ∧ strContains (HTMLMinimizer.minimize docFour 300 "all products") "ALPHAONE" = true
    ∧ strContains (HTMLMinimizer.minimize docFour 300 "all products") "BETATWO" = true
    ∧ (HTMLMinimizer.minimize docFour 300 "all products").length ≤ 300 :=
  minimize_listing_sample_amended 300 "all products" (by decide) (by decide)

/-! ## C8 — exporters reject empty data -/

/-- C8: every exporter operation (CSV, JSON, Excel, export-all,
export-with-metadata, validate_data), given an empty record list, fails
with the invalid-input `ValueError` and writes no file. -/
theorem exporters_reject_empty_data :
    ∀ (defaultDir nowStamp base_name : String) (file_path : Option String)
      (metadata : List (String × String)),
      DataExporter.export_csv defaultDir nowStamp [] file_path
          = (.error "No data to export", [])
      ∧ DataExporter.export_json defaultDir nowStamp [] file_path
          = (.error "No data to export", [])
      ∧ DataExporter.export_excel defaultDir nowStamp [] file_path
          = (.error "No data to export", [])
      ∧ DataExporter.export_all defaultDir nowStamp [] base_name
          = (.error "No data to export", [])
      ∧ DataExporter.export_with_metadata defaultDir nowStamp [] metadata file_path
          = (.error "No data to export", [])
      ∧ DataExporter.validate_data [] = .error "Data is empty" := by
  intro defaultDir nowStamp base_name file_path metadata
  exact ⟨rfl, rfl, rfl, rfl, rfl, rfl⟩

end SmartScraper
